import Mathlib

/-!
Shallow embedding of the Shopee Thailand crawler (crawler.ts, types.ts):
the slug generator, currency conversion, URL discovery, field extraction
post-processing, catalog insert construction and the main run loop.
JS numbers are modelled as rationals (prices, ratings) and integers
(rounded counts); JS null as Option; DOM/parseFloat inputs as explicit
lists of already-parsed candidate values, matching the control flow of
the source line by line.
-/

namespace ShopeeCrawler

/-- Math.round on a rational: JS rounds half away from zero toward plus
infinity, i.e. floor (q + 1/2), for the non-negative values that occur here. -/
def jsRound (q : ℚ) : ℤ := ⌊q + 1/2⌋

/-- Fixed THB to KRW rate, constant THB_TO_KRW = 40 in crawler.ts. -/
def THB_TO_KRW : ℚ := 40

/-- Conversion of the extracted THB price to KRW, from crawler.ts line 575:
productData.price is tested for JS truthiness (so both null and 0 take the
null branch), otherwise Math.round(price * THB_TO_KRW). -/
def priceKrwOf (price : Option ℚ) : Option ℤ :=
  match price with
  | none => none
  | some v => if v = 0 then none else some (jsRound (v * THB_TO_KRW))

/-- Decimal digit character, code 48 + d. -/
def digitChar (d : ℕ) : Char := Char.ofNat (48 + d)

/-- Fuelled decimal rendering helper; fuel at least n + 1 suffices. -/
def natDecimalGo : ℕ → ℕ → List Char
  | 0, _ => []
  | fuel + 1, n =>
    if n < 10 then [digitChar n]
    else natDecimalGo fuel (n / 10) ++ [digitChar (n % 10)]

/-- Decimal rendering of a natural number, as JS template interpolation of
Date.now() renders the timestamp. -/
def natDecimal (n : ℕ) : List Char := natDecimalGo (n + 1) n

/-- Character allow-list of the slug regex [^a-z0-9가-힣ก-๙\s-] in
crawler.ts line 62: lowercase latin letters, ascii digits, hangul
syllables U+AC00-U+D7A3, thai block characters U+0E01-U+0E59. -/
def allowedSlugChar (c : Char) : Bool :=
  (97 ≤ c.toNat && c.toNat ≤ 122) ||
  (48 ≤ c.toNat && c.toNat ≤ 57) ||
  (0xAC00 ≤ c.toNat && c.toNat ≤ 0xD7A3) ||
  (0x0E01 ≤ c.toNat && c.toNat ≤ 0xE59)

/-- JS regex \s character class (ECMAScript WhiteSpace and LineTerminator). -/
def isJsWhitespace (c : Char) : Bool :=
  c.toNat = 0x09 || c.toNat = 0x0A || c.toNat = 0x0B || c.toNat = 0x0C ||
  c.toNat = 0x0D || c.toNat = 0x20 || c.toNat = 0xA0 || c.toNat = 0x1680 ||
  (0x2000 ≤ c.toNat && c.toNat ≤ 0x200A) ||
  c.toNat = 0x2028 || c.toNat = 0x2029 || c.toNat = 0x202F ||
  c.toNat = 0x205F || c.toNat = 0x3000 || c.toNat = 0xFEFF

/-- String.prototype.toLowerCase modelled on the ascii range; characters
outside A-Z are left unchanged (non-ascii uppercase letters are removed by
the following allow-list filter both in JS and here). -/
def jsToLower (c : Char) : Char :=
  if 65 ≤ c.toNat && c.toNat ≤ 90 then Char.ofNat (c.toNat + 32) else c

/-- Replace(/\s+/g, the hyphen): each maximal run of whitespace becomes a
single hyphen. The boolean records whether the previous character was
whitespace. -/
def collapseWsGo : Bool → List Char → List Char
  | _, [] => []
  | prevWs, c :: cs =>
    if isJsWhitespace c then
      if prevWs then collapseWsGo true cs else '-' :: collapseWsGo true cs
    else c :: collapseWsGo false cs

/-- Slug discriminator appended by crawler.ts line 64: a hyphen followed by
the decimal rendering of Date.now(). -/
def slugDiscriminator (now : ℕ) : List Char := '-' :: natDecimal now

/-- Slug body before the discriminator: lowercase, strip characters outside
the allow-list (keeping whitespace and hyphen), collapse whitespace runs to
hyphens, truncate to 80 characters (crawler.ts lines 60-64). -/
def slugBody (title : List Char) : List Char :=
  (collapseWsGo false
    ((title.map jsToLower).filter
      (fun c => allowedSlugChar c || isJsWhitespace c || c = '-'))).take 80

/-- CreateSlug from crawler.ts lines 59-65, with the Date.now() observation
passed explicitly as the parameter now. -/
def createSlug (title : List Char) (now : ℕ) : List Char :=
  slugBody title ++ slugDiscriminator now

/-- Ascii decimal digit test, regex class \d. -/
def isAsciiDigit (c : Char) : Bool := 48 ≤ c.toNat && c.toNat ≤ 57

/-- Does the href contain the three-character substring formed of a hyphen,
the letter i and a dot, as tested by href.includes in crawler.ts line 206. -/
def includesDashIDot : List Char → Bool
  | [] => false
  | '-' :: 'i' :: '.' :: _ => true
  | _ :: cs => includesDashIDot cs

/-- Does the shopee item-id regex (hyphen, i, dot, one or more digits, dot,
one or more digits) match starting exactly at the head of the list. -/
def itemPatternHere : List Char → Bool
  | '-' :: 'i' :: '.' :: rest =>
    (rest.takeWhile isAsciiDigit ≠ []) &&
    (match rest.dropWhile isAsciiDigit with
     | '.' :: r2 => r2.takeWhile isAsciiDigit ≠ []
     | _ => false)
  | _ => false

/-- Regex test of crawler.ts line 206: some suffix of the href starts with
the shopee item-id pattern. -/
def hasItemPattern : List Char → Bool
  | [] => false
  | c :: cs => itemPatternHere (c :: cs) || hasItemPattern cs

/-- Href filter of extractLinksFromPage: includes the dash-i-dot marker and
matches the item-id regex. -/
def productLinkTest (href : String) : Bool :=
  includesDashIDot href.data && hasItemPattern href.data

/-- Does the href start with the four characters h t t p. -/
def startsWithHttp : List Char → Bool
  | 'h' :: 't' :: 't' :: 'p' :: _ => true
  | _ => false

/-- Absolute URL construction of crawler.ts lines 207-209. -/
def fullUrl (href : String) : String :=
  if startsWithHttp href.data then href else "https://shopee.co.th" ++ href

/-- Insertion-order deduplication, the JS new Set construction of
crawler.ts line 215: keeps the first occurrence of every element. -/
def setDedupGo (seen : List String) : List String → List String
  | [] => []
  | x :: xs => if x ∈ seen then setDedupGo seen xs else x :: setDedupGo (x :: seen) xs

/-- Spread of a new Set over the pushed links. -/
def setDedup (l : List String) : List String := setDedupGo [] l

/-- ExtractLinksFromPage (crawler.ts lines 194-220): over the hrefs of the
anchors of the page, keep product-pattern links, absolutise them, dedup. -/
def extractLinksFromPage (anchors : List String) : List String :=
  setDedup ((anchors.filter productLinkTest).map fullUrl)

/-- Entry-point loop of getProductUrls (crawler.ts lines 239-310): stop when
the running total has reached maxProducts, otherwise append the links of
the next page that are not already collected. A page on which navigation
or extraction failed contributes an empty link list. -/
def getProductUrlsGo (maxProducts : ℕ) : List String → List (List String) → List String
  | acc, [] => acc
  | acc, p :: ps =>
    if maxProducts ≤ acc.length then acc
    else getProductUrlsGo maxProducts (acc ++ (extractLinksFromPage p).filter (fun u => u ∉ acc)) ps

/-- GetProductUrls (crawler.ts lines 225-313): run the entry-point loop on
the anchor lists of the pages and slice the result to maxProducts. -/
def getProductUrls (pages : List (List String)) (maxProducts : ℕ) : List String :=
  (getProductUrlsGo maxProducts [] pages).take maxProducts

/-- Uncapped variant of the entry-point loop, used to express how many
distinct matching URLs the entry points yield in total. -/
def collectAllGo : List String → List (List String) → List String
  | acc, [] => acc
  | acc, p :: ps => collectAllGo (acc ++ (extractLinksFromPage p).filter (fun u => u ∉ acc)) ps

/-- Number of distinct product URLs the entry points together yield. -/
def discoveredUrlCount (pages : List (List String)) : ℕ :=
  (collectAllGo [] pages).length

/-- One parsed price observation folded into the running (price, original)
pair, crawler.ts lines 376-388. JS truthiness: a null or zero price takes
the first branch via the bang-price disjunct, and originalPrice is updated
from the old price only when that old price is truthy (non-null, non-zero). -/
def priceStep (s : Option ℚ × Option ℚ) (v : ℚ) : Option ℚ × Option ℚ :=
  match s with
  | (none, orig) => (some v, orig)
  | (some p, orig) =>
    if p = 0 then (some v, orig)
    else if v < p then (some v, some p)
    else if p < v then (some p, some v)
    else (some p, orig)

/-- JS truthiness of the running price: non-null and non-zero. -/
def priceTruthy (s : Option ℚ × Option ℚ) : Bool :=
  match s.1 with
  | none => false
  | some p => decide (p ≠ 0)

/-- Selector loop of the price extraction (crawler.ts lines 374-390): fold
the parsed matches of each selector in order, breaking after the first
selector that leaves a truthy price. -/
def priceSelectorsGo : Option ℚ × Option ℚ → List (List ℚ) → Option ℚ × Option ℚ
  | s, [] => s
  | s, g :: gs =>
    let t := g.foldl priceStep s
    if priceTruthy t then t else priceSelectorsGo t gs

/-- Price extraction from the parsed matches of the price selectors,
starting from null price and null originalPrice. -/
def extractPrices (groups : List (List ℚ)) : Option ℚ × Option ℚ :=
  priceSelectorsGo (none, none) groups

/-- Rating selector loop (crawler.ts lines 403-419): each candidate parsed
value is assigned to rating unconditionally; the loop breaks when the
assigned value lies in the closed interval from 1 to 5, else continues with
the out-of-range value still assigned. Absent selectors contribute no
candidate. Initial rating is 0. -/
def ratingLoop : ℚ → List ℚ → ℚ
  | r, [] => r
  | _, c :: cs => if 1 ≤ c ∧ c ≤ 5 then c else ratingLoop c cs

/-- Rating produced by the field extractor from the parsed candidates. -/
def ratingFrom (cands : List ℚ) : ℚ := ratingLoop 0 cands

/-- Review-count selector loop (crawler.ts lines 422-442): each candidate is
a parsed value together with a flag recording whether the matched text
contains the letter k (thousands). The rounded count is assigned
unconditionally and the loop breaks when it is positive. -/
def reviewLoop : ℤ → List (ℚ × Bool) → ℤ
  | r, [] => r
  | _, (c, hasK) :: cs =>
    let rc := jsRound (if hasK then c * 1000 else c)
    if 0 < rc then rc else reviewLoop rc cs

/-- Review count produced by the field extractor from the parsed candidates. -/
def reviewCountFrom (cands : List (ℚ × Bool)) : ℤ := reviewLoop 0 cands

/-- Raw record returned by the in-page evaluate of extractProductDetails
(crawler.ts lines 539-556). Numeric fields that the page may lack are
Options; rating, reviewCount and soldCount default to 0 in the source and
are therefore total. -/
structure ProductData where
  itemId : String
  shopId : String
  title : String
  description : String
  thumbnailUrl : String
  imageUrls : List String
  videoUrl : Option String
  price : Option ℚ
  originalPrice : Option ℚ
  discountPercent : Option ℤ
  rating : ℚ
  reviewCount : ℤ
  soldCount : ℤ
  shopName : String
  category : String
  freeShipping : Bool
deriving Repr, DecidableEq

/-- ShopeeProduct of types.ts (crawledAt, a wall-clock Date, is omitted
from the model). -/
structure ShopeeProduct where
  itemId : String
  shopId : String
  title : String
  slug : String
  description : String
  thumbnailUrl : String
  imageUrls : List String
  videoUrl : Option String
  price : ℚ
  originalPrice : Option ℚ
  priceKrw : Option ℤ
  currency : String
  discountPercent : Option ℤ
  rating : ℚ
  reviewCount : ℤ
  soldCount : ℤ
  category : String
  shopName : String
  shopLocation : Option String
  freeShipping : Bool
  sourceUrl : String
deriving Repr, DecidableEq

/-- Post-evaluate logic of extractProductDetails (crawler.ts lines 559-587):
discard the record when title or itemId is empty (JS falsy string),
otherwise build the ShopeeProduct; price defaults a null extraction to 0
(JS price-or-zero), priceKrw applies the truthiness-guarded conversion. The
Date.now() observation of the slug is the explicit parameter now. -/
def buildShopeeProduct (d : ProductData) (now : ℕ) (url : String) : Option ShopeeProduct :=
  if d.title = "" ∨ d.itemId = "" then none
  else some
    { itemId := d.itemId
      shopId := d.shopId
      title := d.title
      slug := String.mk (createSlug d.title.data now)
      description := d.description
      thumbnailUrl := d.thumbnailUrl
      imageUrls := d.imageUrls
      videoUrl := d.videoUrl
      price := d.price.getD 0
      originalPrice := d.originalPrice
      priceKrw := priceKrwOf d.price
      currency := "THB"
      discountPercent := d.discountPercent
      rating := d.rating
      reviewCount := d.reviewCount
      soldCount := d.soldCount
      category := d.category
      shopName := d.shopName
      shopLocation := none
      freeShipping := d.freeShipping
      sourceUrl := url }

/-- ProductInsert of types.ts, the row shape inserted into the products
table. -/
structure ProductInsert where
  title : String
  slug : String
  description : Option String
  thumbnail_url : Option String
  video_url : Option String
  original_price : ℚ
  currency : String
  price_krw : Option ℤ
  discount_rate : Option ℤ
  source_platform : String
  source_url : String
  external_rating : Option ℚ
  external_review_count : ℤ
  purchase_count : ℤ
  tags : List String
  is_featured : Bool
  is_active : Bool
  category_id : Option String
deriving Repr, DecidableEq

/-- Row construction of saveToSupabase (crawler.ts lines 603-622).
JS or-null maps the falsy empty string and the zero rating to null;
or-zero on the numeric counts is the identity; tags filter out falsy
(empty) strings; is_featured is rating at least 4.5 and soldCount at
least 1000. -/
def buildProductInsert (p : ShopeeProduct) : ProductInsert :=
  { title := p.title
    slug := p.slug
    description := if p.description = "" then none else some p.description
    thumbnail_url := if p.thumbnailUrl = "" then none else some p.thumbnailUrl
    video_url := p.videoUrl
    original_price := p.price
    currency := "THB"
    price_krw := p.priceKrw
    discount_rate := p.discountPercent
    source_platform := "shopee"
    source_url := p.sourceUrl
    external_rating := if p.rating = 0 then none else some p.rating
    external_review_count := p.reviewCount
    purchase_count := p.soldCount
    tags := [p.category, p.shopName, "shopee-thailand"].filter (fun s => s ≠ "")
    is_featured := decide ((9/2 : ℚ) ≤ p.rating) && decide ((1000 : ℤ) ≤ p.soldCount)
    is_active := true
    category_id := none }

/-- SaveToSupabase outcome handling (crawler.ts lines 624-641): the insert
against the external store either errors with a message or succeeds; an
error is logged and reported as false, success as true. The store call
itself is the explicit argument. -/
def saveToSupabase (insertResult : Except String Unit) : Bool :=
  match insertResult with
  | Except.error _ => false
  | Except.ok _ => true

/-- One iteration of the per-item loop of main (crawler.ts lines 687-702):
an item for which extraction returned null is skipped, otherwise it is
written and the success counter is incremented exactly when saveToSupabase
reports true. -/
def crawlStep (store : ShopeeProduct → Except String Unit)
    (cnt : ℕ) (it : Option ShopeeProduct) : ℕ :=
  match it with
  | none => cnt
  | some p => if saveToSupabase (store p) then cnt + 1 else cnt

/-- Per-item loop of main (crawler.ts lines 679-721): fold crawlStep over
the items starting from a success counter of 0. The store behaviour is the
explicit function argument. -/
def crawlLoop (store : ShopeeProduct → Except String Unit)
    (items : List (Option ShopeeProduct)) : ℕ :=
  items.foldl (crawlStep store) 0

/-- Attempted count reported by main: the number of collected product URLs,
one loop iteration each (crawler.ts line 725). -/
def attemptedCount (items : List (Option ShopeeProduct)) : ℕ := items.length

/-- Concrete product record used in closed instantiations: rating 4.8,
reviewCount 1234, soldCount 0. -/
def sampleProduct : ShopeeProduct :=
  { itemId := "23760274651"
    shopId := "177346169"
    title := "Wireless Earbuds X1"
    slug := "wireless-earbuds-x1-1700000000000"
    description := ""
    thumbnailUrl := ""
    imageUrls := []
    videoUrl := none
    price := 100
    originalPrice := none
    priceKrw := some 4000
    currency := "THB"
    discountPercent := none
    rating := 24/5
    reviewCount := 1234
    soldCount := 0
    category := ""
    shopName := ""
    shopLocation := none
    freeShipping := false
    sourceUrl := "https://shopee.co.th/x-i.177346169.23760274651" }

/-- Counter shift of the per-item fold: folding from counter c yields c
plus the fold from 0. -/
theorem crawlLoop_foldl_shift (store : ShopeeProduct → Except String Unit)
    (l : List (Option ShopeeProduct)) :
    ∀ c : ℕ, l.foldl (crawlStep store) c = c + crawlLoop store l := by
  induction l with
  | nil => intro c; simp [crawlLoop]
  | cons it l ih =>
    intro c
    have hstep : ∀ a : ℕ, crawlStep store a it = a + crawlStep store 0 it := by
      intro a
      cases it with
      | none => simp [crawlStep]
      | some p => simp only [crawlStep]; split <;> omega
    simp only [crawlLoop, List.foldl_cons]
    rw [ih (crawlStep store c it), ih (crawlStep store 0 it), hstep c]
    have hl : crawlLoop store l = l.foldl (crawlStep store) 0 := rfl
    omega

/-- The success counter is additive over list concatenation. -/
theorem crawlLoop_append (store : ShopeeProduct → Except String Unit)
    (l1 l2 : List (Option ShopeeProduct)) :
    crawlLoop store (l1 ++ l2) = crawlLoop store l1 + crawlLoop store l2 := by
  simp only [crawlLoop, List.foldl_append]
  rw [crawlLoop_foldl_shift]
  rfl

/-- C1 counterexample: a stored record with rating 4.8 and reviewCount 1234
but soldCount 0 has is_featured false, although the claim (rating at least
4.5 and reviewCount at least 1000, regardless of sold count) demands true:
the persisted flag is computed from soldCount, not from reviewCount. -/
theorem saveToSupabase_featured_ignores_reviewCount :
    (buildProductInsert sampleProduct).is_featured = false ∧
    (9/2 : ℚ) ≤ sampleProduct.rating ∧ (1000 : ℤ) ≤ sampleProduct.reviewCount := by
  refine ⟨?_, by norm_num [sampleProduct], by norm_num [sampleProduct]⟩
  simp only [buildProductInsert, sampleProduct]
  norm_num

/-- C1 amended: for every product record the pipeline persists, the stored
is_featured flag is true exactly when the extracted rating is at least 4.5
and the extracted sold count is at least 1000 (crawler.ts line 619). -/
theorem saveToSupabase_featured_iff_rating_and_sold (p : ShopeeProduct) :
    (buildProductInsert p).is_featured = true ↔
    ((9/2 : ℚ) ≤ p.rating ∧ (1000 : ℤ) ≤ p.soldCount) := by
  simp [buildProductInsert]

/-- C2 counterexample: an extracted source price of 0 is converted to an
absent (null) local price by the truthiness-guarded conversion of
crawler.ts line 575, not to round(0 * rate) = 0 as the claim states. -/
theorem priceKrwOf_zero_conflated_with_absent :
    priceKrwOf (some 0) = none ∧
    priceKrwOf (some 0) ≠ some (jsRound ((0 : ℚ) * THB_TO_KRW)) := by
  constructor
  · rfl
  · intro h
    simp [priceKrwOf] at h

/-- C2 amended: an absent source price yields an absent converted price and
the conversion is a total function (never throws); a source price of 0
also yields an absent converted price, because the code tests the price
for JS truthiness and 0 is falsy; every non-zero price v is converted to
round(v * rate). -/
theorem priceKrwOf_conversion :
    priceKrwOf none = none ∧ priceKrwOf (some 0) = none ∧
    ∀ v : ℚ, v ≠ 0 → priceKrwOf (some v) = some (jsRound (v * THB_TO_KRW)) := by
  refine ⟨rfl, rfl, fun v hv => ?_⟩
  simp [priceKrwOf, hv]

/-- C2 witness: the amended conversion evaluated at the non-zero source
price 100 with rate 40 yields the converted price 4000. -/
theorem priceKrwOf_conversion_witness :
    priceKrwOf (some 100) = some (jsRound ((100 : ℚ) * THB_TO_KRW)) ∧
    jsRound ((100 : ℚ) * THB_TO_KRW) = 4000 :=
  ⟨priceKrwOf_conversion.2.2 100 (by norm_num), by norm_num [jsRound, THB_TO_KRW]⟩

/-- C7 confirmed: the pipeline emits no record exactly when the extracted
title or the extracted itemId is empty; any record with both non-empty is
kept, whatever the other fields contain (crawler.ts lines 559-562). -/
theorem buildShopeeProduct_none_iff_missing_required
    (d : ProductData) (now : ℕ) (url : String) :
    buildShopeeProduct d now url = none ↔ (d.title = "" ∨ d.itemId = "") := by
  by_cases h : d.title = "" ∨ d.itemId = ""
  · simp [buildShopeeProduct, h]
  · simp [buildShopeeProduct, h]

/-- C8 confirmed: when the store rejects the insert for an item with an
error, saveToSupabase returns false for that item, the succeeded counter
of the run is the same as if the item had not been there (it is attempted
but not counted as succeeded), the attempted count includes it, and the
remaining items are still processed (the counter over the suffix is
unchanged), so the run completes. -/
theorem crawlLoop_store_error (store : ShopeeProduct → Except String Unit)
    (p : ShopeeProduct) (e : String) (pre post : List (Option ShopeeProduct))
    (h : store p = Except.error e) :
    saveToSupabase (store p) = false ∧
    crawlLoop store (pre ++ some p :: post) = crawlLoop store pre + crawlLoop store post ∧
    attemptedCount (pre ++ some p :: post) = attemptedCount pre + 1 + attemptedCount post := by
  have hs : saveToSupabase (store p) = false := by rw [h]; rfl
  refine ⟨hs, ?_, ?_⟩
  · have h1 : crawlLoop store (pre ++ some p :: post) =
        crawlLoop store pre + crawlLoop store (some p :: post) := crawlLoop_append ..
    have h2 : crawlLoop store (some p :: post) = crawlLoop store post := by
      simp only [crawlLoop, List.foldl_cons, crawlStep, hs, if_false]
      exact (crawlLoop_foldl_shift store post 0).trans (by simp [crawlLoop])
    rw [h1, h2]
  · simp [attemptedCount]
    omega

/-- C8 witness: a single-item run whose store rejects the insert with a
constraint-violation message reports one attempted item and zero
succeeded, and the write for that item returns false. -/
theorem crawlLoop_store_error_witness :
    saveToSupabase ((fun _ => Except.error "duplicate key value violates unique constraint")
      sampleProduct) = false ∧
    crawlLoop (fun _ => Except.error "duplicate key value violates unique constraint")
        ([] ++ some sampleProduct :: []) =
      crawlLoop (fun _ => Except.error "duplicate key value violates unique constraint") [] +
      crawlLoop (fun _ => Except.error "duplicate key value violates unique constraint") [] ∧
    attemptedCount ([] ++ some sampleProduct :: []) =
      attemptedCount [] + 1 + attemptedCount [] :=
  crawlLoop_store_error (fun _ => Except.error "duplicate key value violates unique constraint")
    sampleProduct "duplicate key value violates unique constraint" [] [] rfl

/-- Rating selector loop result: either the initial value is kept or some
candidate value is returned. -/
theorem ratingLoop_mem (cands : List ℚ) :
    ∀ r, ratingLoop r cands = r ∨ ratingLoop r cands ∈ cands := by
  induction cands with
  | nil => intro r; left; rfl
  | cons c cs ih =>
    intro r
    simp only [ratingLoop]
    split
    · right; exact List.mem_cons_self ..
    · rcases ih c with h | h
      · right; rw [h]; exact List.mem_cons_self ..
      · right; exact List.mem_cons_of_mem _ h

/-- Review-count loop keeps a non-negative counter when all parsed
candidate values are non-negative. -/
theorem reviewLoop_nonneg (rcs : List (ℚ × Bool)) :
    ∀ r : ℤ, 0 ≤ r → (∀ q ∈ rcs, 0 ≤ q.1) → 0 ≤ reviewLoop r rcs := by
  induction rcs with
  | nil => intro r h _; exact h
  | cons q qs ih =>
    intro r h hq
    obtain ⟨c, k⟩ := q
    have hc0 : (0 : ℚ) ≤ c := hq (c, k) (List.mem_cons_self ..)
    simp only [reviewLoop]
    have hrc : 0 ≤ jsRound (if k then c * 1000 else c) := by
      apply Int.le_floor.mpr
      push_cast
      have hmul : (0 : ℚ) ≤ c * 1000 := mul_nonneg hc0 (by norm_num)
      split <;> linarith
    by_cases hpos : 0 < jsRound (if k = true then c * 1000 else c)
    · rw [if_pos hpos]; exact hrc
    · rw [if_neg hpos]
      exact ih _ hrc (fun q hq2 => hq q (List.mem_cons_of_mem _ hq2))

/-- C9 counterexample: when the only rating candidate a selector parses is
10, the field extractor records rating 10, outside the claimed range 0 to
5: the loop at crawler.ts lines 410-419 assigns the parsed value before
checking the range and keeps an out-of-range value when no later selector
supplies an in-range one. -/
theorem ratingFrom_out_of_range :
    ratingFrom [10] = 10 ∧ ¬ ((10 : ℚ) ≤ 5) ∧ (0 : ℚ) ≤ 10 := by
  refine ⟨by decide, by norm_num, by norm_num⟩

/-- C9 amended: given non-negative parsed candidates (regex captures of
digit strings are non-negative), the extracted rating is non-negative and
the extracted review count is a non-negative integer; the rating is at
most 5 whenever every parsed rating candidate is at most 5, but an
out-of-range final candidate is carried through unclamped. -/
theorem rating_review_bounds (cands : List ℚ) (rcs : List (ℚ × Bool))
    (hc : ∀ c ∈ cands, 0 ≤ c) (hr : ∀ q ∈ rcs, 0 ≤ q.1) :
    0 ≤ ratingFrom cands ∧
    ((∀ c ∈ cands, c ≤ 5) → ratingFrom cands ≤ 5) ∧
    0 ≤ reviewCountFrom rcs := by
  refine ⟨?_, ?_, reviewLoop_nonneg rcs 0 le_rfl hr⟩
  · rcases ratingLoop_mem cands 0 with h | h
    · rw [ratingFrom, h]
    · exact hc _ h
  · intro h5
    rcases ratingLoop_mem cands 0 with h | h
    · rw [ratingFrom, h]; norm_num
    · exact h5 _ h

/-- C9 witness: the amended bounds evaluated at the single rating
candidate 4 and the single review candidate 1234 without a thousands
marker. -/
theorem rating_review_bounds_witness :
    0 ≤ ratingFrom [(4 : ℚ)] ∧
    ((∀ c ∈ [(4 : ℚ)], c ≤ 5) → ratingFrom [(4 : ℚ)] ≤ 5) ∧
    0 ≤ reviewCountFrom [((1234 : ℚ), false)] :=
  rating_review_bounds _ _ (by norm_num) (by norm_num)

/-- Weak price invariant: a null running price forces a null original
price. -/
def PriceInv (s : Option ℚ × Option ℚ) : Prop := s.1 = none → s.2 = none

/-- Strong price invariant under positive parsed values: the running price
is positive and the original price, when present, lies strictly above it. -/
def PriceInvPos (s : Option ℚ × Option ℚ) : Prop :=
  (s.1 = none → s.2 = none) ∧ (∀ p, s.1 = some p → 0 < p) ∧
  (∀ o, s.2 = some o → ∃ p, s.1 = some p ∧ p < o)

/-- After any price observation the running price is non-null. -/
theorem priceStep_fst_ne_none (s : Option ℚ × Option ℚ) (v : ℚ) :
    (priceStep s v).1 ≠ none := by
  obtain ⟨pp, oo⟩ := s
  cases pp with
  | none => simp [priceStep]
  | some p =>
    simp only [priceStep]
    split
    · simp
    · split
      · simp
      · split <;> simp

/-- One price observation preserves the weak invariant. -/
theorem priceStep_inv (s : Option ℚ × Option ℚ) (v : ℚ) (_h : PriceInv s) :
    PriceInv (priceStep s v) :=
  fun hc => absurd hc (priceStep_fst_ne_none s v)

/-- One positive price observation preserves the strong invariant. -/
theorem priceStep_invPos (s : Option ℚ × Option ℚ) (v : ℚ) (hv : 0 < v)
    (h : PriceInvPos s) : PriceInvPos (priceStep s v) := by
  obtain ⟨h0, hpos, hlt⟩ := h
  obtain ⟨pp, oo⟩ := s
  cases pp with
  | none =>
    have hoo : oo = none := h0 rfl
    subst hoo
    simp only [priceStep]
    refine ⟨by simp, fun q hq => ?_, by simp⟩
    simp at hq; subst hq; exact hv
  | some p =>
    have hp : 0 < p := hpos p rfl
    simp only [priceStep, if_neg (ne_of_gt hp)]
    by_cases h1 : v < p
    · rw [if_pos h1]
      refine ⟨by simp, fun q hq => ?_, fun o ho => ?_⟩
      · simp at hq; subst hq; exact hv
      · simp at ho; subst ho; exact ⟨v, rfl, h1⟩
    · rw [if_neg h1]
      by_cases h2 : p < v
      · rw [if_pos h2]
        refine ⟨by simp, fun q hq => ?_, fun o ho => ?_⟩
        · simp at hq; subst hq; exact hp
        · simp at ho; subst ho; exact ⟨p, rfl, h2⟩
      · rw [if_neg h2]
        exact ⟨by simp, hpos, hlt⟩

/-- Folding the observations of one selector preserves the weak invariant. -/
theorem foldl_priceStep_inv (g : List ℚ) :
    ∀ s, PriceInv s → PriceInv (g.foldl priceStep s) := by
  induction g with
  | nil => intro s h; exact h
  | cons v vs ih => intro s h; exact ih _ (priceStep_inv s v h)

/-- Folding the positive observations of one selector preserves the strong
invariant. -/
theorem foldl_priceStep_invPos (g : List ℚ) :
    ∀ s, (∀ v ∈ g, 0 < v) → PriceInvPos s → PriceInvPos (g.foldl priceStep s) := by
  induction g with
  | nil => intro s _ h; exact h
  | cons v vs ih =>
    intro s hg h
    exact ih _ (fun w hw => hg w (List.mem_cons_of_mem _ hw))
      (priceStep_invPos s v (hg v (List.mem_cons_self ..)) h)

/-- The selector loop preserves the weak invariant. -/
theorem priceSelectorsGo_inv (gs : List (List ℚ)) :
    ∀ s, PriceInv s → PriceInv (priceSelectorsGo s gs) := by
  induction gs with
  | nil => intro s h; exact h
  | cons g gsTail ih =>
    intro s h
    simp only [priceSelectorsGo]
    split
    · exact foldl_priceStep_inv g s h
    · exact ih _ (foldl_priceStep_inv g s h)

/-- The selector loop preserves the strong invariant when every parsed
value of every selector is positive. -/
theorem priceSelectorsGo_invPos (gs : List (List ℚ)) :
    ∀ s, (∀ g ∈ gs, ∀ v ∈ g, 0 < v) → PriceInvPos s →
      PriceInvPos (priceSelectorsGo s gs) := by
  induction gs with
  | nil => intro s _ h; exact h
  | cons g gsTail ih =>
    intro s hg h
    simp only [priceSelectorsGo]
    split
    · exact foldl_priceStep_invPos g s (hg g (List.mem_cons_self ..)) h
    · exact ih _ (fun g2 hg2 => hg g2 (List.mem_cons_of_mem _ hg2))
        (foldl_priceStep_invPos g s (hg g (List.mem_cons_self ..)) h)

/-- C10 counterexample: the parsed price observations 5, then 0, then 7 of
a single selector leave price 7 and originalPrice 5, so a record with
non-null originalPrice can have price strictly greater than originalPrice:
the JS truthiness test treats the running price 0 as absent and restarts
the minimum tracking without clearing originalPrice. -/
theorem extractPrices_zero_resets_order :
    extractPrices [[5, 0, 7]] = (some 7, some 5) ∧ ¬ ((7 : ℚ) < 5) :=
  ⟨by decide, by norm_num⟩

/-- C10 amended: whenever the extracted originalPrice is non-null the
extracted price is also non-null; and provided every parsed price
observation is strictly positive, the price is strictly below the
originalPrice. A parsed observation of exactly 0 can break the strict
order, as the counterexample shows. -/
theorem extractPrices_original_above_price (groups : List (List ℚ)) :
    (∀ o, (extractPrices groups).2 = some o → ∃ p, (extractPrices groups).1 = some p) ∧
    ((∀ g ∈ groups, ∀ v ∈ g, 0 < v) →
      ∀ o, (extractPrices groups).2 = some o →
        ∃ p, (extractPrices groups).1 = some p ∧ p < o) := by
  constructor
  · intro o ho
    have hinv : PriceInv (extractPrices groups) :=
      priceSelectorsGo_inv groups (none, none) (fun _ => rfl)
    cases hfst : (extractPrices groups).1 with
    | none => rw [hinv hfst] at ho; exact absurd ho (by simp)
    | some p => exact ⟨p, rfl⟩
  · intro hpos o ho
    have hinv : PriceInvPos (extractPrices groups) := by
      refine priceSelectorsGo_invPos groups (none, none) hpos ?_
      exact ⟨fun _ => rfl, fun p hp => by simp at hp, fun o2 ho2 => by simp at ho2⟩
    exact hinv.2.2 o ho

/-- C10 witness: with the positive observations 5 then 3 of one selector
the extraction ends with originalPrice 5 and a price strictly below it. -/
theorem extractPrices_original_above_price_witness :
    (∃ p, (extractPrices [[(5 : ℚ), 3]]).1 = some p) ∧
    (∃ p, (extractPrices [[(5 : ℚ), 3]]).1 = some p ∧ p < 5) :=
  ⟨(extractPrices_original_above_price [[(5 : ℚ), 3]]).1 5 (by decide),
   (extractPrices_original_above_price [[(5 : ℚ), 3]]).2 (by decide) 5 (by decide)⟩

/-- Insertion-order dedup yields a list without duplicates whose members
avoid the already-seen elements. -/
theorem setDedupGo_nodup (l : List String) :
    ∀ seen, (setDedupGo seen l).Nodup ∧ ∀ x ∈ setDedupGo seen l, x ∉ seen := by
  induction l with
  | nil => intro seen; exact ⟨List.nodup_nil, by simp [setDedupGo]⟩
  | cons x xs ih =>
    intro seen
    by_cases hx : x ∈ seen
    · rw [setDedupGo, if_pos hx]
      exact ih seen
    · rw [setDedupGo, if_neg hx]
      obtain ⟨hnd, hmem⟩ := ih (x :: seen)
      refine ⟨List.nodup_cons.mpr ⟨fun hc => hmem x hc (List.mem_cons_self ..), hnd⟩, ?_⟩
      intro y hy
      rcases List.mem_cons.mp hy with rfl | hy2
      · exact hx
      · exact fun hc => hmem y hy2 (List.mem_cons_of_mem _ hc)

/-- The set-semantics dedup has no duplicates. -/
theorem setDedup_nodup (l : List String) : (setDedup l).Nodup :=
  (setDedupGo_nodup l []).1

/-- Links extracted from one page carry no duplicates. -/
theorem extractLinksFromPage_nodup (anchors : List String) :
    (extractLinksFromPage anchors).Nodup :=
  setDedup_nodup _

/-- The entry-point loop keeps the accumulated URL list duplicate-free. -/
theorem getProductUrlsGo_nodup (maxProducts : ℕ) (ps : List (List String)) :
    ∀ acc : List String, acc.Nodup → (getProductUrlsGo maxProducts acc ps).Nodup := by
  induction ps with
  | nil => intro acc h; exact h
  | cons p ps ih =>
    intro acc h
    rw [getProductUrlsGo]
    split
    · exact h
    · apply ih
      have hdisj : acc.Disjoint ((extractLinksFromPage p).filter (fun u => u ∉ acc)) := by
        intro a ha hb
        have hf := (List.mem_filter.mp hb).2
        simp at hf
        exact hf ha
      exact h.append ((extractLinksFromPage_nodup p).filter _) hdisj

/-- C6 confirmed: the URL discoverer result has set semantics; no URL
appears more than once, whether the duplicates came from one page or from
several entry points (crawler.ts dedups within a page via a Set at line
215 and across pages via the membership filter at line 267). -/
theorem getProductUrls_nodup (pages : List (List String)) (maxProducts : ℕ) :
    (getProductUrls pages maxProducts).Nodup :=
  List.Nodup.sublist (List.take_sublist _ _)
    (getProductUrlsGo_nodup maxProducts pages [] List.nodup_nil)

/-- The capped entry-point loop collects at least the capped share of what
the uncapped loop would collect. -/
theorem getProductUrlsGo_length_ge (maxProducts : ℕ) (ps : List (List String)) :
    ∀ acc, min maxProducts (collectAllGo acc ps).length ≤
      (getProductUrlsGo maxProducts acc ps).length := by
  induction ps with
  | nil =>
    intro acc
    simp only [collectAllGo, getProductUrlsGo]
    exact min_le_right ..
  | cons p ps ih =>
    intro acc
    simp only [collectAllGo, getProductUrlsGo]
    split
    · next hge => exact le_trans (min_le_left ..) hge
    · exact ih _

/-- C5 confirmed: the URL discoverer never returns more than maxProducts
URLs; when the entry points together yield at least maxProducts distinct
matching URLs the returned list has exactly maxProducts entries; and once
the running total has reached maxProducts no further entry point changes
the collection (the loop returns immediately). -/
theorem getProductUrls_capped (pages : List (List String)) (maxProducts : ℕ) :
    (getProductUrls pages maxProducts).length ≤ maxProducts ∧
    (maxProducts ≤ discoveredUrlCount pages →
      (getProductUrls pages maxProducts).length = maxProducts) ∧
    (∀ (acc : List String) (rest : List (List String)), maxProducts ≤ acc.length →
      getProductUrlsGo maxProducts acc rest = acc) := by
  refine ⟨?_, ?_, ?_⟩
  · rw [getProductUrls, List.length_take]
    exact min_le_left ..
  · intro h
    rw [getProductUrls, List.length_take]
    rw [discoveredUrlCount] at h
    have h3 := getProductUrlsGo_length_ge maxProducts pages []
    rw [min_eq_left h] at h3
    omega
  · intro acc rest h
    cases rest with
    | nil => rfl
    | cons p ps => rw [getProductUrlsGo, if_pos h]

/-- C5 witness: one entry point yielding two distinct matching URLs with a
cap of one returns exactly one URL, and a loop whose accumulator already
holds one URL ignores the remaining entry point. -/
theorem getProductUrls_capped_witness :
    (getProductUrls [["https://a-i.1.2", "https://b-i.3.4"]] 1).length ≤ 1 ∧
    (getProductUrls [["https://a-i.1.2", "https://b-i.3.4"]] 1).length = 1 ∧
    getProductUrlsGo 1 ["https://a-i.1.2"] [["https://b-i.3.4"]] = ["https://a-i.1.2"] := by
  obtain ⟨h1, h2, h3⟩ := getProductUrls_capped [["https://a-i.1.2", "https://b-i.3.4"]] 1
  exact ⟨h1, h2 (by decide), h3 ["https://a-i.1.2"] [["https://b-i.3.4"]] (by decide)⟩

/-- One fold step of the decimal-digit evaluation map. -/
def decValStep (a : ℕ) (c : Char) : ℕ := a * 10 + (c.toNat - 48)

/-- Evaluation map sending a list of decimal digit characters back to the
number they denote; left inverse of natDecimal. -/
def decDigitsVal (l : List Char) : ℕ := l.foldl decValStep 0

/-- Character code of a decimal digit below 10. -/
theorem digitChar_toNat (d : ℕ) (h : d < 10) : (digitChar d).toNat = 48 + d := by
  interval_cases d <;> decide

/-- Decimal digits below 10 are in the slug allow-list. -/
theorem digitChar_allowed (d : ℕ) (h : d < 10) : allowedSlugChar (digitChar d) = true := by
  interval_cases d <;> decide

/-- The evaluation map inverts the fuelled decimal rendering when the fuel
exceeds the number. -/
theorem decDigitsVal_natDecimalGo :
    ∀ fuel n, n < fuel → decDigitsVal (natDecimalGo fuel n) = n := by
  intro fuel
  induction fuel with
  | zero => intro n h; omega
  | succ f ih =>
    intro n h
    rw [natDecimalGo]
    by_cases h10 : n < 10
    · rw [if_pos h10]
      simp [decDigitsVal, decValStep, digitChar_toNat n h10]
    · rw [if_neg h10]
      have happ : decDigitsVal (natDecimalGo f (n / 10) ++ [digitChar (n % 10)]) =
          decValStep (decDigitsVal (natDecimalGo f (n / 10))) (digitChar (n % 10)) := by
        simp [decDigitsVal, List.foldl_append]
      rw [happ, ih (n / 10) (by omega), decValStep,
        digitChar_toNat _ (Nat.mod_lt _ (by norm_num))]
      omega

/-- Distinct numbers have distinct decimal renderings. -/
theorem natDecimal_inj (m n : ℕ) (h : natDecimal m = natDecimal n) : m = n := by
  have h1 := decDigitsVal_natDecimalGo (m + 1) m (Nat.lt_succ_self m)
  have h2 := decDigitsVal_natDecimalGo (n + 1) n (Nat.lt_succ_self n)
  simp only [natDecimal] at h
  rw [← h1, ← h2, h]

/-- C3 counterexample: two slug-generator invocations on the same title are
not always distinct; two calls that observe the same Date.now() millisecond
return the identical slug, so the claim quantified over every pair of
same-run invocations fails. -/
theorem createSlug_same_timestamp_collides :
    ¬ ∀ (t : List Char) (n1 n2 : ℕ), createSlug t n1 ≠ createSlug t n2 :=
  fun h => h [] 0 0 rfl

/-- C3 amended: two slug-generator invocations on the same title that
observe distinct Date.now() values return distinct slugs; the appended
timestamp is the only discriminator, so within one millisecond the slugs
coincide. -/
theorem createSlug_distinct_timestamps (t : List Char) (n1 n2 : ℕ) (h : n1 ≠ n2) :
    createSlug t n1 ≠ createSlug t n2 := by
  intro he
  apply h
  rw [createSlug, createSlug] at he
  have h2 : slugDiscriminator n1 = slugDiscriminator n2 := by
    exact List.append_cancel_left he
  rw [slugDiscriminator, slugDiscriminator] at h2
  exact natDecimal_inj n1 n2 (List.tail_eq_of_cons_eq h2)

/-- C3 witness: the amended statement at the title a and the distinct
timestamps 0 and 1. -/
theorem createSlug_distinct_timestamps_witness :
    (0 : ℕ) ≠ 1 ∧ createSlug ['a'] 0 ≠ createSlug ['a'] 1 :=
  ⟨by decide, createSlug_distinct_timestamps ['a'] 0 1 (by decide)⟩

/-- Whitespace collapsing emits only hyphens and non-whitespace input
characters. -/
theorem mem_collapseWsGo (l : List Char) :
    ∀ (b : Bool) (c : Char), c ∈ collapseWsGo b l →
      c = '-' ∨ (c ∈ l ∧ isJsWhitespace c = false) := by
  induction l with
  | nil => intro b c h; simp [collapseWsGo] at h
  | cons x xs ih =>
    intro b c h
    rw [collapseWsGo] at h
    by_cases hw : isJsWhitespace x = true
    · rw [if_pos hw] at h
      cases b with
      | true =>
        rcases ih true c h with h2 | ⟨h3, h4⟩
        · exact Or.inl h2
        · exact Or.inr ⟨List.mem_cons_of_mem _ h3, h4⟩
      | false =>
        rcases List.mem_cons.mp h with rfl | h2
        · exact Or.inl rfl
        · rcases ih true c h2 with h3 | ⟨h4, h5⟩
          · exact Or.inl h3
          · exact Or.inr ⟨List.mem_cons_of_mem _ h4, h5⟩
    · rw [if_neg hw] at h
      rcases List.mem_cons.mp h with rfl | h2
      · exact Or.inr ⟨List.mem_cons_self .., Bool.not_eq_true _ ▸ eq_false_of_ne_true hw⟩
      · rcases ih false c h2 with h3 | ⟨h4, h5⟩
        · exact Or.inl h3
        · exact Or.inr ⟨List.mem_cons_of_mem _ h4, h5⟩

/-- The slug body is at most 80 characters long. -/
theorem slugBody_length_le (t : List Char) : (slugBody t).length ≤ 80 := by
  rw [slugBody, List.length_take]
  exact min_le_left ..

/-- Every character of the slug body is allow-listed or a hyphen. -/
theorem mem_slugBody (t : List Char) (c : Char) (h : c ∈ slugBody t) :
    allowedSlugChar c = true ∨ c = '-' := by
  rw [slugBody] at h
  rcases mem_collapseWsGo _ false c (List.take_subset _ _ h) with h3 | ⟨h4, h5⟩
  · exact Or.inr h3
  · have hp := (List.mem_filter.mp h4).2
    simp only [Bool.or_eq_true, decide_eq_true_eq] at hp
    rcases hp with (hp | hp) | hp
    · exact Or.inl hp
    · rw [hp] at h5; exact Bool.noConfusion h5
    · exact Or.inr hp

/-- Every character of the decimal rendering is an allow-listed digit. -/
theorem natDecimalGo_digits :
    ∀ fuel n c, c ∈ natDecimalGo fuel n → allowedSlugChar c = true := by
  intro fuel
  induction fuel with
  | zero => intro n c h; simp [natDecimalGo] at h
  | succ f ih =>
    intro n c h
    rw [natDecimalGo] at h
    by_cases h10 : n < 10
    · rw [if_pos h10] at h
      simp at h
      subst h
      exact digitChar_allowed n h10
    · rw [if_neg h10] at h
      rcases List.mem_append.mp h with h2 | h2
      · exact ih _ _ h2
      · simp at h2
        subst h2
        exact digitChar_allowed _ (Nat.mod_lt _ (by norm_num))

/-- C4 confirmed: for every non-empty title the slug contains only
allow-listed characters (lowercase latin letters, ascii digits, hangul and
thai-block characters) and hyphens, and its length is at most the
80-character maximum plus the length of the appended discriminator. -/
theorem createSlug_charset_and_length (t : List Char) (n : ℕ) (_ht : t ≠ []) :
    (∀ c ∈ createSlug t n, allowedSlugChar c = true ∨ c = '-') ∧
    (createSlug t n).length ≤ 80 + (slugDiscriminator n).length := by
  constructor
  · intro c hc
    rcases List.mem_append.mp hc with hc | hc
    · exact mem_slugBody t c hc
    · rw [slugDiscriminator] at hc
      rcases List.mem_cons.mp hc with rfl | hc2
      · exact Or.inr rfl
      · exact Or.inl (natDecimalGo_digits _ _ _ hc2)
  · rw [createSlug, List.length_append]
    have := slugBody_length_le t
    omega

/-- C4 witness: the slug of the one-character title a with timestamp 0
satisfies the character and length bounds. -/
theorem createSlug_charset_and_length_witness :
    (['a'] : List Char) ≠ [] ∧
    ((∀ c ∈ createSlug ['a'] 0, allowedSlugChar c = true ∨ c = '-') ∧
      (createSlug ['a'] 0).length ≤ 80 + (slugDiscriminator 0).length) :=
  ⟨by decide, createSlug_charset_and_length ['a'] 0 (by decide)⟩

end ShopeeCrawler
